import Mathlib

/-!
Verification development for a retrieval-augmented policy question-answering
repository.  The development shallowly embeds the parts of the code that the
checked properties are about:

* `app/rag/ingestion.py` — the `TextChunker` (`_split_text`,
  `_split_large_paragraph`) that splits a document into overlapping chunks;
* `app/rag/chain.py` — the `RAGChain` (`_is_off_topic`, `_call_llm`,
  `query`) that turns retrieval results into an answer with citations;
* `app/rag/vectorstore.py` — `initialize_vectorstore`, the indexing pipeline;
* `evaluation/evaluate.py` — the scorers `evaluate_groundedness`,
  `evaluate_citation`, `evaluate_off_topic`, `evaluate_partial_match` and the
  tokenizer `_tokenize`.

Python strings are modelled as `List Char`; Python floats that only ever hold
decimal literals and exact counts are modelled as `ℚ` (the comparisons the
properties talk about, such as `score < 0.3` and `matches >= n * 0.3`, agree
with the float comparisons on all inputs the code produces).  Dictionary
lookups with defaults (`dict.get(key, default)`) are modelled by `Option`
fields read with `Option.getD`.
-/

/-- Python whitespace, the set stripped by `str.strip()` and split on by
`str.split()` with no argument (ASCII fragment, which is all the repository's
data contains). -/
def pyWhitespace (c : Char) : Bool :=
  c = ' ' || c = '\t' || c = '\n' || c = '\r' || c = '\x0b' || c = '\x0c'

/-- Python `s.strip()`: remove leading and trailing whitespace. -/
def pyStrip (s : List Char) : List Char :=
  ((s.dropWhile pyWhitespace).reverse.dropWhile pyWhitespace).reverse

/-- Python `s.lower()` (ASCII fragment). -/
def pyLower (s : List Char) : List Char :=
  s.map Char.toLower

/-- Python `needle in hay` substring test on strings. -/
def pySubstr (needle hay : List Char) : Bool :=
  decide (needle <:+: hay)

/-- Python `s[-k:]` for a non-negative `k`: with `k = 0` this is the whole
string (a genuine Python slicing quirk), otherwise the last `k` characters. -/
def pySliceLast (s : List Char) (k : Nat) : List Char :=
  if k = 0 then s else s.drop (s.length - k)

/-- Helper for `text.split(sep)` with the two-character separator `"\n\n"`:
accumulates the current piece in reverse in `acc`.  Python's `split` scans
left to right taking non-overlapping separator occurrences. -/
def splitParAux (acc : List Char) : List Char → List (List Char)
  | [] => [acc.reverse]
  | [c] => [(c :: acc).reverse]
  | c1 :: c2 :: rest =>
    if c1 = '\n' ∧ c2 = '\n' then acc.reverse :: splitParAux [] rest
    else splitParAux (c1 :: acc) (c2 :: rest)

/-- Python `text.split('\n\n')` as used by `TextChunker._split_text`. -/
def splitParagraphs (text : List Char) : List (List Char) :=
  splitParAux [] text

/-- Helper for `para.split('\n')`. -/
def splitNLAux (acc : List Char) : List Char → List (List Char)
  | [] => [acc.reverse]
  | c :: rest =>
    if c = '\n' then acc.reverse :: splitNLAux [] rest
    else splitNLAux (c :: acc) rest

/-- Python `para.split('\n')` as used by `TextChunker._split_large_paragraph`. -/
def splitLines (para : List Char) : List (List Char) :=
  splitNLAux [] para

/-- The loop of `TextChunker._split_large_paragraph` (ingestion.py lines
134-151): greedily accumulate lines into `current`, closing (and stripping) a
chunk whenever the next line would push it past `cs` (the `chunk_size`). -/
def slpLoop (cs : Nat) (current : List Char) : List (List Char) → List (List Char)
  | [] => if current = [] then [] else [pyStrip current]
  | line :: rest =>
    if cs < current.length + line.length + 1 then
      (if current = [] then [] else [pyStrip current]) ++ slpLoop cs line rest
    else
      slpLoop cs (if current = [] then line else current ++ '\n' :: line) rest

/-- `TextChunker._split_large_paragraph`: split an oversized paragraph by
lines; if that produced no chunks, fall back to the whole paragraph. -/
def splitLargeParagraph (cs : Nat) (para : List Char) : List (List Char) :=
  if slpLoop cs [] (splitLines para) = [] then [para]
  else slpLoop cs [] (splitLines para)

/-- The paragraph loop of `TextChunker._split_text` (ingestion.py lines
97-132).  `cs` is `chunk_size`, `ov` is `chunk_overlap`, `current` the running
buffer, and the argument list the remaining pieces of `text.split('\n\n')`.
On overflow with a non-empty buffer the buffer is emitted (stripped) and the
next buffer is seeded with the trailing `ov` characters of the old buffer; on
overflow with an empty buffer the paragraph is routed through
`splitLargeParagraph`, all pieces but the last are emitted and the last is
carried forward. -/
def stLoop (cs ov : Nat) (current : List Char) : List (List Char) → List (List Char)
  | [] => if pyStrip current = [] then [] else [pyStrip current]
  | p :: rest =>
    if pyStrip p = [] then stLoop cs ov current rest
    else if cs < current.length + (pyStrip p).length + 2 then
      if current = [] then
        (splitLargeParagraph cs (pyStrip p)).dropLast ++
          stLoop cs ov ((splitLargeParagraph cs (pyStrip p)).getLastD []) rest
      else
        pyStrip current ::
          stLoop cs ov
            ((if ov < current.length then pySliceLast current ov else current) ++
              '\n' :: '\n' :: pyStrip p) rest
    else
      stLoop cs ov (if current = [] then pyStrip p else current ++ '\n' :: '\n' :: pyStrip p) rest

/-- `TextChunker._split_text(text)` with `chunk_size = cs` and
`chunk_overlap = ov`. -/
def splitText (cs ov : Nat) (text : List Char) : List (List Char) :=
  stLoop cs ov [] (splitParagraphs text)

/-- Length of the longest stripped paragraph of `text`, the quantity that
bounds the chunker's overflow. -/
def maxParaLen (text : List Char) : Nat :=
  ((splitParagraphs text).map (fun p => (pyStrip p).length)).foldr max 0

/-- Lowercase alphanumeric characters, the character class of the regex
`[a-z0-9]+` in `_tokenize`. -/
def isLowerAlnum (c : Char) : Bool :=
  ('a' ≤ c && c ≤ 'z') || ('0' ≤ c && c ≤ '9')

/-- Maximal runs of characters satisfying `p`, as `re.findall` with a
one-class regex returns them.  `acc` holds the current run in reverse. -/
def runsByAux (p : Char → Bool) (acc : List Char) : List Char → List (List Char)
  | [] => if acc = [] then [] else [acc.reverse]
  | c :: rest =>
    if p c then runsByAux p (c :: acc) rest
    else if acc = [] then runsByAux p [] rest
    else acc.reverse :: runsByAux p [] rest

/-- Maximal runs of characters satisfying `p`. -/
def runsBy (p : Char → Bool) (s : List Char) : List (List Char) :=
  runsByAux p [] s

/-- Python `text.split()` with no argument: maximal runs of non-whitespace. -/
def pySplitWS (s : List Char) : List (List Char) :=
  runsBy (fun c => !pyWhitespace c) s

/-- The key terms of `evaluate_groundedness`:
`[t for t in expected_keywords.lower().split() if len(t) > 3]`. -/
def keyTerms (expected_keywords : List Char) : List (List Char) :=
  (pySplitWS (pyLower expected_keywords)).filter (fun t => 3 < t.length)

/-- The match count of `evaluate_groundedness`:
`sum(1 for t in key_terms if t in answer_lower)`. -/
def matchCount (answer expected_keywords : List Char) : Nat :=
  (keyTerms expected_keywords).countP (fun t => pySubstr t (pyLower answer))

/-- `evaluate_groundedness(answer, expected_keywords)` (evaluate.py lines
73-85): false when either argument is empty or there are no key terms,
otherwise true iff at least 30% of the key terms occur in the lowered
answer.  The float comparison `matches >= len(key_terms) * 0.3` is modelled
exactly over `ℚ`. -/
def evaluate_groundedness (answer expected_keywords : List Char) : Bool :=
  if answer = [] || expected_keywords = [] then false
  else if keyTerms expected_keywords = [] then false
  else decide (((keyTerms expected_keywords).length : ℚ) * (3 / 10)
                ≤ (matchCount answer expected_keywords : ℚ))

/-- `evaluate_citation(sources_cited, expected_source)` (evaluate.py lines
88-96): vacuously true on an empty expected source, otherwise true iff some
cited source matches the expected source as a case-insensitive substring in
either direction. -/
def evaluate_citation (sources_cited : List (List Char)) (expected_source : List Char) : Bool :=
  if expected_source = [] then true
  else sources_cited.any (fun source =>
    pySubstr (pyLower expected_source) (pyLower source) ||
      pySubstr (pyLower source) (pyLower expected_source))

/-- The refusal-phrase list of `evaluate_off_topic` (evaluate.py lines
99-107). -/
def offTopicIndicators : List (List Char) :=
  ["can only answer".data, "company policies".data, "outside".data,
   "don\x27t have".data, "not in our policies".data,
   "hr@acmecorp.com".data, "contact hr".data]

/-- `evaluate_off_topic(answer)`: true iff the lowered answer contains one of
the fixed refusal phrases. -/
def evaluate_off_topic (answer : List Char) : Bool :=
  offTopicIndicators.any (fun ind => pySubstr ind (pyLower answer))

/-- The sentinel expected answer marking an off-topic question. -/
def offTopicSentinel : List Char := "OFF_TOPIC".data

/-- `_tokenize(text)` (evaluate.py lines 67-70): the set of lowercase
alphanumeric runs of the lowered text that are longer than 2 characters. -/
def pyTokenize (text : List Char) : Finset (List Char) :=
  ((runsBy isLowerAlnum (pyLower text)).filter (fun t => 2 < t.length)).toFinset

/-- `evaluate_partial_match(answer, expected)` (evaluate.py lines 110-123):
0 when the answer or the expected answer is empty or the expected answer is
the `"OFF_TOPIC"` sentinel or the expected answer has no tokens, otherwise
the fraction of expected tokens that also occur in the answer. -/
def evaluate_partial_match (answer expected : List Char) : ℚ :=
  if answer = [] || expected = [] || expected = offTopicSentinel then 0
  else if pyTokenize expected = ∅ then 0
  else ((pyTokenize answer ∩ pyTokenize expected).card : ℚ) / ((pyTokenize expected).card : ℚ)

/-- A retrieval result as `VectorStore.search` returns it: content plus the
metadata fields and score the chain reads.  The Python code reads the fields
with `dict.get(key, default)`, modelled by `Option` plus `Option.getD`. -/
structure SearchResult where
  content : List Char
  source : Option (List Char)
  title : Option (List Char)
  score : Option ℚ
deriving DecidableEq

/-- Outcome of one call to the LLM backend: a completion, or a raised
exception carrying a message. -/
inductive LlmResult where
  | ok (text : List Char)
  | exn (msg : List Char)
deriving DecidableEq

/-- One entry of the `sources` list `RAGChain.query` builds. -/
structure Citation where
  source : List Char
  title : List Char
  snippet : List Char
  score : ℚ
deriving DecidableEq

/-- `RAGResponse` from chain.py without the wall-clock `latency_ms` field,
which is not statable in a pure embedding. -/
structure RAGResponse where
  answer : List Char
  sources : List Citation
  query : List Char
deriving DecidableEq

/-- `RAGChain._is_off_topic(query, results)` (chain.py lines 108-115): true
iff there are no results or the top result's score (default 0) is below 0.3.
The unused `question` parameter is kept from the source signature. -/
def is_off_topic (_question : List Char) : List SearchResult → Bool
  | [] => true
  | r :: _ => decide (r.score.getD 0 < 3 / 10)

/-- The similarity score of the top retrieval result (0 when absent), the
quantity the off-topic gate compares against 0.3. -/
def topScore : List SearchResult → ℚ
  | [] => 0
  | r :: _ => r.score.getD 0

/-- The canned refusal answer of the off-topic branch of `RAGChain.query`. -/
def refusalAnswer : List Char :=
  ("I can only answer questions about Acme Corporation\x27s company policies " ++
   "(such as PTO, benefits, remote work, security, expenses, etc.). " ++
   "For other questions, please contact HR at hr@acmecorp.com.").data

/-- The synthetic answer `_call_llm` returns when no client is configured. -/
def llmNotConfiguredMsg : List Char :=
  "Error: LLM not configured. Please set GROQ_API_KEY environment variable.".data

/-- The head of the synthetic answer `_call_llm` returns when the backend
raises. -/
def llmErrorHead : List Char :=
  "Error generating response: ".data

/-- One context block of `RAGChain._build_context`:
`[Document: <title> (<source>)]\n<content>`. -/
def contextBlock (r : SearchResult) : List Char :=
  "[Document: ".data ++ r.title.getD "Unknown".data ++ " (".data ++
    r.source.getD "Unknown".data ++ ")]\n".data ++ r.content

/-- `RAGChain._build_context(results)`: the blocks joined by
`"\n\n---\n\n"` in retrieval rank order. -/
def build_context (results : List SearchResult) : List Char :=
  List.intercalate "\n\n---\n\n".data (results.map contextBlock)

/-- `RAGChain._build_prompt(query, context)`. -/
def build_prompt (question context : List Char) : List Char :=
  ("Based on the following policy documents, answer the user\x27s question." ++
    "\n\nCONTEXT:\n").data ++ context ++ "\n\nUSER QUESTION: ".data ++ question ++
    ("\n\nPlease provide a helpful, accurate answer based on the policy documents" ++
      " above. Remember to cite your sources.").data

/-- `RAGChain._call_llm(prompt)` (chain.py lines 87-106): the Groq client is
modelled as an optional black-box function from the prompt to a completion
or an exception.  An unconfigured client and a raised exception both yield a
synthetic error answer instead of propagating. -/
def call_llm (client : Option (List Char → LlmResult)) (prompt : List Char) : List Char :=
  match client with
  | none => llmNotConfiguredMsg
  | some f =>
    match f prompt with
    | LlmResult.ok text => text
    | LlmResult.exn msg => llmErrorHead ++ msg

/-- The citation `RAGChain.query` builds from one retrieval result: source,
title, a snippet truncated to 200 characters with an ellipsis marker, and
the score. -/
def mkCitation (r : SearchResult) : Citation :=
  { source := r.source.getD "Unknown".data
  , title := r.title.getD "Unknown".data
  , snippet := if 200 < r.content.length then r.content.take 200 ++ "...".data
               else r.content
  , score := r.score.getD 0 }

namespace RAGChain

/-- `RAGChain.query(question)` (chain.py lines 117-172) given the retrieval
results `vectorstore.search` returned for the question: the off-topic gate
short-circuits with the canned refusal and no sources, otherwise the context
and prompt are assembled, the LLM called, and the citations built from the
retrieval results. -/
def query (client : Option (List Char → LlmResult)) (question : List Char)
    (results : List SearchResult) : RAGResponse :=
  if is_off_topic question results then
    { answer := refusalAnswer, sources := [], query := question }
  else
    { answer := call_llm client (build_prompt question (build_context results))
    , sources := results.map mkCitation
    , query := question }

end RAGChain

/-- A concrete on-topic retrieval result used by the witnesses below. -/
def sampleResult : SearchResult :=
  { content := "Employees receive 15 days of PTO.".data
  , source := some "pto_policy.md".data
  , title := some "PTO Policy".data
  , score := some 1 }

/-- The externally visible steps `initialize_vectorstore` can perform, used
to record which side effects a run triggers. -/
inductive PipelineAction where
  | clear
  | load
  | chunk
  | insert
deriving DecidableEq

/-- `initialize_vectorstore(force_reindex)` (vectorstore.py lines 134-163)
over an abstract index state: the index is the list of its entries, and
`chunks` stands for the result of `ingest_documents()` (loading plus
chunking), which is only consumed in the indexing branch.  The result is
the new index state, the list of performed actions, and the reported entry
count (the count the function prints: the post-insertion total after
indexing, the existing count for the no-op branch). -/
def initialize_vectorstore {α : Type} (force_reindex : Bool)
    (store chunks : List α) : List α × List PipelineAction × Nat :=
  if force_reindex || store.length = 0 then
    ((if force_reindex then [] else store) ++ chunks,
      (if force_reindex then [PipelineAction.clear] else []) ++
        [PipelineAction.load, PipelineAction.chunk, PipelineAction.insert],
      ((if force_reindex then [] else store) ++ chunks).length)
  else
    (store, [], store.length)

example : splitParagraphs "abcde\n\nfghij\n\nklmno".data =
    ["abcde".data, "fghij".data, "klmno".data] := by decide

example : splitText 10 4 "abcde\n\nfghij\n\nklmno".data =
    ["abcde".data, "bcde\n\nfghij".data, "ghij\n\nklmno".data] := by decide

/-- Stripping never lengthens a string. -/
theorem length_pyStrip_le (s : List Char) : (pyStrip s).length ≤ s.length := by
  unfold pyStrip
  calc (((s.dropWhile pyWhitespace).reverse.dropWhile pyWhitespace).reverse).length
      = ((s.dropWhile pyWhitespace).reverse.dropWhile pyWhitespace).length := by simp
    _ ≤ (s.dropWhile pyWhitespace).reverse.length := (List.dropWhile_sublist _).length_le
    _ = (s.dropWhile pyWhitespace).length := by simp
    _ ≤ s.length := (List.dropWhile_sublist _).length_le

/-- Every piece produced by the line splitter is no longer than the
accumulator plus the remaining input. -/
theorem mem_splitNLAux_length {l : List Char} :
    ∀ (s acc : List Char), l ∈ splitNLAux acc s → l.length ≤ acc.length + s.length := by
  intro s
  induction s with
  | nil =>
    intro acc h
    simp [splitNLAux] at h
    simp [h]
  | cons c rest ih =>
    intro acc h
    simp only [splitNLAux] at h
    split at h
    · rcases List.mem_cons.1 h with h | h
      · simp [h, List.length_cons]
      · have := ih [] h
        simp only [List.length_nil, List.length_cons] at this ⊢
        omega
    · have := ih (c :: acc) h
      simp only [List.length_cons] at this ⊢
      omega

/-- Every line of a paragraph is no longer than the paragraph. -/
theorem mem_splitLines_length {l p : List Char} (h : l ∈ splitLines p) :
    l.length ≤ p.length := by
  have := mem_splitNLAux_length p [] h
  simpa using this

/-- Invariant of the `_split_large_paragraph` loop: if the running buffer and
every remaining line are bounded, every emitted chunk is bounded by
`max cs LM`. -/
theorem slpLoop_bound {cs LM : Nat} :
    ∀ (lines : List (List Char)) (current : List Char),
      current.length ≤ max cs LM → (∀ l ∈ lines, l.length ≤ LM) →
      ∀ c ∈ slpLoop cs current lines, c.length ≤ max cs LM := by
  intro lines
  induction lines with
  | nil =>
    intro current hcur _ c hc
    simp only [slpLoop] at hc
    split at hc
    · simp at hc
    · simp only [List.mem_singleton] at hc
      subst hc
      exact le_trans (length_pyStrip_le _) hcur
  | cons line rest ih =>
    intro current hcur hlines c hc
    have hline : line.length ≤ LM := hlines line (List.mem_cons_self _ _)
    have hrest : ∀ l ∈ rest, l.length ≤ LM :=
      fun l hl => hlines l (List.mem_cons_of_mem _ hl)
    simp only [slpLoop] at hc
    split at hc
    · rcases List.mem_append.1 hc with h | h
      · split at h
        · simp at h
        · simp only [List.mem_singleton] at h
          subst h
          exact le_trans (length_pyStrip_le _) hcur
      · exact ih line (le_trans hline (le_max_right _ _)) hrest c h
    · rename_i hnoov
      refine ih _ ?_ hrest c hc
      split
      · exact le_trans hline (le_max_right _ _)
      · simp only [List.length_append, List.length_cons]
        omega

/-- `_split_large_paragraph` always returns at least one chunk. -/
theorem splitLargeParagraph_ne_nil (cs : Nat) (para : List Char) :
    splitLargeParagraph cs para ≠ [] := by
  unfold splitLargeParagraph
  split
  · simp
  · assumption

/-- Every chunk of a line-split paragraph is bounded by the chunk size or by
the paragraph itself (an atomic oversized line is kept whole). -/
theorem splitLargeParagraph_bound {cs : Nat} {para c : List Char}
    (hc : c ∈ splitLargeParagraph cs para) : c.length ≤ max cs para.length := by
  unfold splitLargeParagraph at hc
  split at hc
  · simp only [List.mem_singleton] at hc
    subst hc
    exact le_max_right _ _
  · exact slpLoop_bound (splitLines para) [] (by simp)
      (fun l hl => mem_splitLines_length hl) c hc

/-- The last element (with default) of a non-empty list is a member. -/
theorem getLastD_mem {α : Type} :
    ∀ (l : List α) (d : α), l ≠ [] → l.getLastD d ∈ l := by
  intro l
  induction l with
  | nil => intro d h; exact absurd rfl h
  | cons a t ih =>
    intro d _
    cases t with
    | nil => simp [List.getLastD]
    | cons b u =>
      rw [List.getLastD_cons]
      exact List.mem_cons_of_mem _ (ih a (by simp))

/-- A member of a Nat list is bounded by its `foldr max 0`. -/
theorem le_foldr_max {l : List Nat} {x : Nat} (hx : x ∈ l) : x ≤ l.foldr max 0 := by
  induction l with
  | nil => simp at hx
  | cons a t ih =>
    rcases List.mem_cons.1 hx with rfl | hx
    · exact le_max_left _ _
    · exact le_trans (ih hx) (le_max_right _ _)

/-- Invariant of the `_split_text` paragraph loop: when the overlap budget is
at least 1, if the running buffer is bounded by
`B = max cs (ov + 2 + M)` and every remaining stripped paragraph is bounded by
`M`, then every emitted chunk is bounded by `B`. -/
theorem stLoop_bound {cs ov M : Nat} (hov : 1 ≤ ov) :
    ∀ (ps : List (List Char)) (current : List Char),
      current.length ≤ max cs (ov + 2 + M) →
      (∀ p ∈ ps, (pyStrip p).length ≤ M) →
      ∀ c ∈ stLoop cs ov current ps, c.length ≤ max cs (ov + 2 + M) := by
  intro ps
  induction ps with
  | nil =>
    intro current hcur _ c hc
    simp only [stLoop] at hc
    split at hc
    · simp at hc
    · simp only [List.mem_singleton] at hc
      subst hc
      exact le_trans (length_pyStrip_le _) hcur
  | cons p rest ih =>
    intro current hcur hps c hc
    have hp : (pyStrip p).length ≤ M := hps p (List.mem_cons_self _ _)
    have hrest : ∀ q ∈ rest, (pyStrip q).length ≤ M :=
      fun q hq => hps q (List.mem_cons_of_mem _ hq)
    simp only [stLoop] at hc
    split at hc
    · exact ih current hcur hrest c hc
    · split at hc
      · split at hc
        · rcases List.mem_append.1 hc with h | h
          · have hmem : c ∈ splitLargeParagraph cs (pyStrip p) :=
              List.mem_of_mem_dropLast h
            have := splitLargeParagraph_bound hmem
            have hfit : max cs (pyStrip p).length ≤ max cs (ov + 2 + M) :=
              max_le_max_left _ (by omega)
            exact le_trans this hfit
          · refine ih _ ?_ hrest c h
            have hmem := getLastD_mem _ ([] : List Char)
              (splitLargeParagraph_ne_nil cs (pyStrip p))
            have := splitLargeParagraph_bound hmem
            exact le_trans this (max_le_max_left _ (by omega))
        · rcases List.mem_cons.1 hc with h | h
          · subst h
            exact le_trans (length_pyStrip_le _) hcur
          · refine ih _ ?_ hrest c h
            have hovlen :
                ((if ov < current.length then pySliceLast current ov else current)).length
                  ≤ ov := by
              split
              · rename_i hlt
                unfold pySliceLast
                rw [if_neg (by omega)]
                simp only [List.length_drop]
                omega
              · rename_i hge
                omega
            simp only [List.length_append, List.length_cons]
            have : (pyStrip p).length ≤ M := hp
            refine le_trans ?_ (le_max_right _ _)
            omega
      · rename_i hnempty hnoov
        refine ih _ ?_ hrest c hc
        split
        · exact le_trans (le_trans hp (by omega)) (le_max_right _ _)
        · simp only [List.length_append, List.length_cons]
          refine le_trans ?_ (le_max_left _ _)
          omega

/-- Claim C1 (as stated, refuted): it is NOT the case that every chunk
produced by `TextChunker._split_text` with `chunk_size = 10` and
`chunk_overlap = 4` on the document `"abcde\n\nfghij\n\nklmno"` either fits
the size budget or is a single atomic line.  The second chunk is
`"bcde\n\nfghij"`: it has length 11 > 10 and spans two paragraphs (it contains
newlines), because the overlap seed plus the next paragraph is emitted whole. -/
theorem C1_counterexample :
    ¬ (∀ c ∈ splitText 10 4 "abcde\n\nfghij\n\nklmno".data,
        c.length ≤ 10 ∨ '\n' ∉ c) := by
  decide

/-- Claim C1 (amended): for every document text, size budget, and overlap
budget of at least 1, every chunk produced by the chunker has text length at
most `max chunk_size (chunk_overlap + 2 + M)` where `M` is the length of the
longest (stripped) paragraph of the document: a chunk may exceed the size
budget not only when a single atomic line exceeds it, but also when an
overlap seed joined with the following paragraph exceeds it; the excess is
bounded by the overlap budget plus the separator plus one paragraph. -/
theorem C1_chunk_bound (cs ov : Nat) (text : List Char) (hov : 1 ≤ ov) :
    ∀ c ∈ splitText cs ov text, c.length ≤ max cs (ov + 2 + maxParaLen text) := by
  intro c hc
  refine stLoop_bound hov (splitParagraphs text) [] (by simp) ?_ c hc
  intro p hp
  exact le_foldr_max (List.mem_map_of_mem _ hp)

/-- Witness for `C1_chunk_bound` at a concrete input. -/
theorem C1_chunk_bound_witness :
    1 ≤ 4 ∧
      ∀ c ∈ splitText 10 4 "abcde\n\nfghij\n\nklmno".data,
        c.length ≤ max 10 (4 + 2 + maxParaLen "abcde\n\nfghij\n\nklmno".data) :=
  ⟨by decide, C1_chunk_bound 10 4 "abcde\n\nfghij\n\nklmno".data (by decide)⟩

example : keyTerms "Employees receive 15 days".data =
    ["employees".data, "receive".data, "days".data] := by decide

example : evaluate_groundedness "You receive 15 days of PTO".data
    "Employees receive 15 days".data = true := by
  have hk : (keyTerms "Employees receive 15 days".data).length = 3 := by decide
  have hm : matchCount "You receive 15 days of PTO".data
      "Employees receive 15 days".data = 2 := by decide
  rw [evaluate_groundedness, if_neg (by decide), if_neg (by decide), hk, hm]
  norm_num

example : evaluate_citation ["pto_policy.md".data] "PTO Policy".data = false := by decide

example : evaluate_partial_match "alpha beta".data "alpha gamma".data = 1 / 2 := by
  have h1 : (pyTokenize "alpha beta".data ∩ pyTokenize "alpha gamma".data).card = 1 := by
    decide
  have h2 : (pyTokenize "alpha gamma".data).card = 2 := by decide
  rw [evaluate_partial_match, if_neg (by decide), if_neg (by decide), h1, h2]
  norm_num

/-- Claim C2 (as stated, refuted): the spec's second citation test vector
fails on the code: `evaluate_citation(["pto_policy.md"], "PTO Policy")`
returns `False`, because `"pto policy"` (space) is not a substring of
`"pto_policy.md"` (underscore) and vice versa. -/
theorem C2_counterexample :
    evaluate_citation ["pto_policy.md".data] "PTO Policy".data = false := by
  decide

/-- Claim C2 (amended): `evaluate_citation([], "PTO Policy")` is `False`;
`evaluate_citation(["pto_policy.md"], "PTO Policy")` is also `False` (the
space/underscore mismatch defeats the substring test);
`evaluate_citation(["pto_policy.md"], "PTO_Policy")` is `True`
(case-insensitive substring match in either direction); and for every
cited-sources list, `evaluate_citation(anything, "")` is `True`. -/
theorem C2_citation_vectors :
    evaluate_citation [] "PTO Policy".data = false
    ∧ evaluate_citation ["pto_policy.md".data] "PTO Policy".data = false
    ∧ evaluate_citation ["pto_policy.md".data] "PTO_Policy".data = true
    ∧ ∀ sources_cited : List (List Char), evaluate_citation sources_cited [] = true := by
  refine ⟨by decide, by decide, by decide, ?_⟩
  intro sources_cited
  simp [evaluate_citation]

/-- Claim C4 (as stated, refuted): `evaluate_groundedness` on non-empty
arguments is NOT equivalent to the 30%-of-key-terms bar: with
`answer = "xyzw"` and `expected = "ab"` there are no key terms longer than 3
characters, so the 30% bar `0 ≥ 0.3 * 0` holds vacuously, yet the code
returns `False`. -/
theorem C4_counterexample :
    ¬ (∀ answer expected : List Char, answer ≠ [] → expected ≠ [] →
        (evaluate_groundedness answer expected = true ↔
          ((keyTerms expected).length : ℚ) * (3 / 10)
            ≤ (matchCount answer expected : ℚ))) := by
  intro h
  have hbar : ((keyTerms "ab".data).length : ℚ) * (3 / 10)
      ≤ (matchCount "xyzw".data "ab".data : ℚ) := by
    have hk : (keyTerms "ab".data).length = 0 := by decide
    rw [hk]
    norm_num
  have htrue := (h "xyzw".data "ab".data (by decide) (by decide)).mpr hbar
  have hfalse : evaluate_groundedness "xyzw".data "ab".data = false := by
    rw [evaluate_groundedness, if_neg (by decide), if_pos (by decide)]
  rw [htrue] at hfalse
  exact Bool.noConfusion hfalse

/-- Claim C4 (amended): `evaluate_groundedness` returns `False` when either
argument is empty, and also when the expected answer has no token longer
than 3 characters; otherwise it returns `True` iff at least 30% of the
expected answer's tokens longer than 3 characters appear as case-insensitive
substrings in the actual answer. -/
theorem C4_groundedness_formula (answer expected : List Char)
    (ha : answer ≠ []) (he : expected ≠ []) :
    evaluate_groundedness [] expected = false
    ∧ evaluate_groundedness answer [] = false
    ∧ (keyTerms expected = [] → evaluate_groundedness answer expected = false)
    ∧ (keyTerms expected ≠ [] →
        (evaluate_groundedness answer expected = true ↔
          ((keyTerms expected).length : ℚ) * (3 / 10)
            ≤ (matchCount answer expected : ℚ))) := by
  refine ⟨by simp [evaluate_groundedness], by simp [evaluate_groundedness], ?_, ?_⟩
  · intro hk
    rw [evaluate_groundedness, if_neg (by simp [ha, he]), if_pos hk]
  · intro hk
    rw [evaluate_groundedness, if_neg (by simp [ha, he]), if_neg hk]
    exact decide_eq_true_iff

/-- Witness for `C4_groundedness_formula` at a concrete input. -/
theorem C4_groundedness_formula_witness :
    ("You receive 15 days of PTO".data ≠ ([] : List Char))
    ∧ ("Employees receive 15 days".data ≠ ([] : List Char))
    ∧ (evaluate_groundedness [] "Employees receive 15 days".data = false
      ∧ evaluate_groundedness "You receive 15 days of PTO".data [] = false
      ∧ (keyTerms "Employees receive 15 days".data = [] →
          evaluate_groundedness "You receive 15 days of PTO".data
            "Employees receive 15 days".data = false)
      ∧ (keyTerms "Employees receive 15 days".data ≠ [] →
          (evaluate_groundedness "You receive 15 days of PTO".data
              "Employees receive 15 days".data = true ↔
            ((keyTerms "Employees receive 15 days".data).length : ℚ) * (3 / 10)
              ≤ (matchCount "You receive 15 days of PTO".data
                  "Employees receive 15 days".data : ℚ)))) :=
  ⟨by decide, by decide,
    C4_groundedness_formula _ _ (by decide) (by decide)⟩

/-- Claim C5: `evaluate_partial_match` returns the recall-oriented token
overlap `|tokens(actual) ∩ tokens(expected)| / |tokens(expected)|` (tokens
are lowercase alphanumeric runs longer than 2 characters); it returns 0 when
the answer is empty or the expected answer is the `"OFF_TOPIC"` sentinel, 1
when the two token sets are identical and non-empty, and 0 when they are
disjoint. -/
theorem C5_partial_match (answer expected : List Char)
    (ha : answer ≠ []) (he : expected ≠ []) (hs : expected ≠ offTopicSentinel) :
    (∀ e : List Char, evaluate_partial_match [] e = 0)
    ∧ (∀ a : List Char, evaluate_partial_match a offTopicSentinel = 0)
    ∧ (pyTokenize expected ≠ ∅ →
        evaluate_partial_match answer expected =
          ((pyTokenize answer ∩ pyTokenize expected).card : ℚ)
            / ((pyTokenize expected).card : ℚ))
    ∧ (pyTokenize answer = pyTokenize expected → pyTokenize expected ≠ ∅ →
        evaluate_partial_match answer expected = 1)
    ∧ (pyTokenize answer ∩ pyTokenize expected = ∅ →
        evaluate_partial_match answer expected = 0) := by
  have hformula : pyTokenize expected ≠ ∅ →
      evaluate_partial_match answer expected =
        ((pyTokenize answer ∩ pyTokenize expected).card : ℚ)
          / ((pyTokenize expected).card : ℚ) := by
    intro hne
    rw [evaluate_partial_match, if_neg (by simp [ha, he, hs]), if_neg hne]
  refine ⟨?_, ?_, hformula, ?_, ?_⟩
  · intro e
    simp [evaluate_partial_match]
  · intro a
    simp [evaluate_partial_match]
  · intro hid hne
    rw [hformula hne, hid, Finset.inter_self]
    have hcard : ((pyTokenize expected).card : ℚ) ≠ 0 := by
      exact_mod_cast fun h0 => hne (Finset.card_eq_zero.mp h0)
    exact div_self hcard
  · intro hdisj
    by_cases hne : pyTokenize expected = ∅
    · rw [evaluate_partial_match, if_neg (by simp [ha, he, hs]), if_pos hne]
    · rw [hformula hne, hdisj]
      simp

/-- Witness for `C5_partial_match` at a concrete input. -/
theorem C5_partial_match_witness :
    ("alpha beta".data ≠ ([] : List Char))
    ∧ ("alpha gamma".data ≠ ([] : List Char))
    ∧ ("alpha gamma".data ≠ offTopicSentinel)
    ∧ ((∀ e : List Char, evaluate_partial_match [] e = 0)
      ∧ (∀ a : List Char, evaluate_partial_match a offTopicSentinel = 0)
      ∧ (pyTokenize "alpha gamma".data ≠ ∅ →
          evaluate_partial_match "alpha beta".data "alpha gamma".data =
            ((pyTokenize "alpha beta".data ∩ pyTokenize "alpha gamma".data).card : ℚ)
              / ((pyTokenize "alpha gamma".data).card : ℚ))
      ∧ (pyTokenize "alpha beta".data = pyTokenize "alpha gamma".data →
          pyTokenize "alpha gamma".data ≠ ∅ →
          evaluate_partial_match "alpha beta".data "alpha gamma".data = 1)
      ∧ (pyTokenize "alpha beta".data ∩ pyTokenize "alpha gamma".data = ∅ →
          evaluate_partial_match "alpha beta".data "alpha gamma".data = 0)) :=
  ⟨by decide, by decide, by decide,
    C5_partial_match _ _ (by decide) (by decide) (by decide)⟩

/-- Claim C6: the groundedness scorer is monotonic in the answer: if `a` is
a contiguous substring of `a2` and `evaluate_groundedness a e` is true, then
`evaluate_groundedness a2 e` is true as well (every key term occurring in
`a` also occurs in `a2`). -/
theorem C6_groundedness_monotone (a a2 e : List Char) (hsub : a <:+: a2)
    (h : evaluate_groundedness a e = true) :
    evaluate_groundedness a2 e = true := by
  have ha : a ≠ [] := by
    intro h0
    subst h0
    simp [evaluate_groundedness] at h
  have he : e ≠ [] := by
    intro h0
    subst h0
    simp [evaluate_groundedness] at h
  have hk : keyTerms e ≠ [] := by
    intro h0
    rw [evaluate_groundedness, if_neg (by simp [ha, he]), if_pos h0] at h
    exact Bool.noConfusion h
  have ha2 : a2 ≠ [] := by
    intro h0
    subst h0
    obtain ⟨s, t, heq⟩ := hsub
    simp only [List.append_eq_nil] at heq
    exact ha heq.1.2
  rw [evaluate_groundedness, if_neg (by simp [ha, he]), if_neg hk] at h
  rw [evaluate_groundedness, if_neg (by simp [ha2, he]), if_neg hk]
  rw [decide_eq_true_eq] at h ⊢
  refine le_trans h ?_
  have hmono : matchCount a e ≤ matchCount a2 e := by
    apply List.countP_mono_left
    intro t ht hta
    unfold pySubstr at hta ⊢
    rw [decide_eq_true_eq] at hta ⊢
    have hlow : pyLower a <:+: pyLower a2 := hsub.map Char.toLower
    exact hta.trans hlow
  exact_mod_cast hmono

/-- Witness for `C6_groundedness_monotone` at a concrete input. -/
theorem C6_groundedness_monotone_witness :
    ("receive 15 days".data <:+: "You receive 15 days of PTO".data)
    ∧ evaluate_groundedness "receive 15 days".data
        "Employees receive 15 days".data = true
    ∧ evaluate_groundedness "You receive 15 days of PTO".data
        "Employees receive 15 days".data = true := by
  have h1 : evaluate_groundedness "receive 15 days".data
      "Employees receive 15 days".data = true := by
    have hk : (keyTerms "Employees receive 15 days".data).length = 3 := by decide
    have hm : matchCount "receive 15 days".data
        "Employees receive 15 days".data = 2 := by decide
    rw [evaluate_groundedness, if_neg (by decide), if_neg (by decide), hk, hm]
    norm_num
  exact ⟨by decide, h1,
    C6_groundedness_monotone _ _ _ (by decide) h1⟩

/-- The off-topic gate fires exactly on empty retrieval or a top score
strictly below 0.3. -/
theorem is_off_topic_iff (question : List Char) (results : List SearchResult) :
    is_off_topic question results = true ↔
      results = [] ∨ topScore results < 3 / 10 := by
  cases results with
  | nil => simp [is_off_topic, topScore]
  | cons r rest => simp [is_off_topic, topScore]

/-- Claim C3: if retrieval returns zero results or the top score is strictly
below 0.30, `RAGChain.query` returns the canned refusal with an empty
citation list and its result does not depend on the LLM client (no LLM
call); and a top score not below the threshold (in particular exactly 0.30)
is treated as on-topic, so the threshold is exclusive on the low side. -/
theorem C3_off_topic_gate (client client2 : Option (List Char → LlmResult))
    (question : List Char) (results : List SearchResult)
    (h : results = [] ∨ topScore results < 3 / 10) :
    (RAGChain.query client question results).answer = refusalAnswer
    ∧ (RAGChain.query client question results).sources = []
    ∧ RAGChain.query client question results = RAGChain.query client2 question results
    ∧ ∀ res : List SearchResult, res ≠ [] → ¬ topScore res < 3 / 10 →
        is_off_topic question res = false := by
  have hgate : is_off_topic question results = true :=
    (is_off_topic_iff question results).mpr h
  refine ⟨?_, ?_, ?_, ?_⟩
  · simp only [RAGChain.query, if_pos hgate]
  · simp only [RAGChain.query, if_pos hgate]
  · simp only [RAGChain.query, if_pos hgate]
  · intro res hne hscore
    cases res with
    | nil => exact absurd rfl hne
    | cons r rest =>
      simp only [topScore] at hscore
      simp [is_off_topic, hscore]

/-- Witness for `C3_off_topic_gate` at a concrete input (zero results). -/
theorem C3_off_topic_gate_witness :
    (([] : List SearchResult) = [] ∨ topScore [] < 3 / 10)
    ∧ ((RAGChain.query none "What is the best pizza place nearby?".data []).answer
          = refusalAnswer
      ∧ (RAGChain.query none "What is the best pizza place nearby?".data []).sources = []
      ∧ RAGChain.query none "What is the best pizza place nearby?".data []
          = RAGChain.query none "What is the best pizza place nearby?".data []
      ∧ ∀ res : List SearchResult, res ≠ [] → ¬ topScore res < 3 / 10 →
          is_off_topic "What is the best pizza place nearby?".data res = false) :=
  ⟨Or.inl rfl,
    C3_off_topic_gate none none "What is the best pizza place nearby?".data [] (Or.inl rfl)⟩

/-- The off-topic gate does not fire on `sampleResult` (score 1 ≥ 0.3). -/
theorem is_off_topic_sampleResult (question : List Char) :
    is_off_topic question [sampleResult] = false := by
  norm_num [is_off_topic, sampleResult]

/-- Claim C8: for an on-topic question, `RAGChain.query` always returns a
response (the generation failure is swallowed, never propagated): with an
unconfigured client the answer is the synthetic configuration-error string,
with a raising client the answer is the synthetic generation-error string,
and in every case the citation list built from retrieval is still
returned. -/
theorem C8_llm_failure_degrades (client : Option (List Char → LlmResult))
    (question : List Char) (results : List SearchResult)
    (h : is_off_topic question results = false) :
    (RAGChain.query client question results).sources = results.map mkCitation
    ∧ (client = none →
        (RAGChain.query client question results).answer = llmNotConfiguredMsg)
    ∧ (∀ (f : List Char → LlmResult) (msg : List Char), client = some f →
        f (build_prompt question (build_context results)) = LlmResult.exn msg →
        (RAGChain.query client question results).answer = llmErrorHead ++ msg) := by
  have hfalse : ¬ is_off_topic question results = true := by simp [h]
  refine ⟨?_, ?_, ?_⟩
  · simp only [RAGChain.query, if_neg hfalse]
  · intro hnone
    subst hnone
    simp only [RAGChain.query, if_neg hfalse, call_llm]
  · intro f msg hsome hexn
    subst hsome
    simp only [RAGChain.query, if_neg hfalse, call_llm, hexn]

/-- Witness for `C8_llm_failure_degrades` at a concrete input. -/
theorem C8_llm_failure_degrades_witness :
    (is_off_topic "How many vacation days do I get?".data [sampleResult] = false)
    ∧ ((RAGChain.query none "How many vacation days do I get?".data
          [sampleResult]).sources = [sampleResult].map mkCitation
      ∧ (none = (none : Option (List Char → LlmResult)) →
          (RAGChain.query none "How many vacation days do I get?".data
            [sampleResult]).answer = llmNotConfiguredMsg)
      ∧ (∀ (f : List Char → LlmResult) (msg : List Char),
          (none : Option (List Char → LlmResult)) = some f →
          f (build_prompt "How many vacation days do I get?".data
              (build_context [sampleResult])) = LlmResult.exn msg →
          (RAGChain.query none "How many vacation days do I get?".data
            [sampleResult]).answer = llmErrorHead ++ msg)) :=
  ⟨is_off_topic_sampleResult _,
    C8_llm_failure_degrades none "How many vacation days do I get?".data
      [sampleResult] (is_off_topic_sampleResult _)⟩

/-- Claim C9: for an on-topic question the citation list of the returned
response is exactly the retrieval results in rank order mapped through
`mkCitation`; it does not depend on the LLM client; and each citation
carries the result's source, title, score, and a snippet equal to the
content when it is at most 200 characters and otherwise the first 200
characters followed by the ellipsis marker. -/
theorem C9_citations_reflect_retrieval
    (client client2 : Option (List Char → LlmResult))
    (question : List Char) (results : List SearchResult)
    (h : is_off_topic question results = false) :
    (RAGChain.query client question results).sources = results.map mkCitation
    ∧ (RAGChain.query client question results).sources
        = (RAGChain.query client2 question results).sources
    ∧ ∀ r : SearchResult, mkCitation r =
        { source := r.source.getD "Unknown".data
        , title := r.title.getD "Unknown".data
        , snippet := if r.content.length ≤ 200 then r.content
                     else r.content.take 200 ++ "...".data
        , score := r.score.getD 0 } := by
  have hfalse : ¬ is_off_topic question results = true := by simp [h]
  refine ⟨?_, ?_, ?_⟩
  · simp only [RAGChain.query, if_neg hfalse]
  · simp only [RAGChain.query, if_neg hfalse]
  · intro r
    unfold mkCitation
    by_cases hlen : 200 < r.content.length
    · have h2 : ¬ r.content.length ≤ 200 := by omega
      simp [hlen, h2]
    · have h2 : r.content.length ≤ 200 := by omega
      simp [hlen, h2]

/-- Witness for `C9_citations_reflect_retrieval` at a concrete input. -/
theorem C9_citations_reflect_retrieval_witness :
    (is_off_topic "How many vacation days do I get?".data [sampleResult] = false)
    ∧ ((RAGChain.query none "How many vacation days do I get?".data
          [sampleResult]).sources = [sampleResult].map mkCitation
      ∧ (RAGChain.query none "How many vacation days do I get?".data
            [sampleResult]).sources
          = (RAGChain.query (some (fun _ => LlmResult.ok "answer".data))
              "How many vacation days do I get?".data [sampleResult]).sources
      ∧ ∀ r : SearchResult, mkCitation r =
          { source := r.source.getD "Unknown".data
          , title := r.title.getD "Unknown".data
          , snippet := if r.content.length ≤ 200 then r.content
                       else r.content.take 200 ++ "...".data
          , score := r.score.getD 0 }) :=
  ⟨is_off_topic_sampleResult _,
    C9_citations_reflect_retrieval none (some (fun _ => LlmResult.ok "answer".data))
      "How many vacation days do I get?".data [sampleResult]
      (is_off_topic_sampleResult _)⟩

/-- Claim C10: whenever the off-topic gate short-circuits `RAGChain.query`,
the returned answer satisfies the evaluation harness's refusal detector:
`evaluate_off_topic` finds the phrase "can only answer" in the canned
refusal, so a gated question is always scored as correctly handled. -/
theorem C10_refusal_detected (client : Option (List Char → LlmResult))
    (question : List Char) (results : List SearchResult)
    (h : is_off_topic question results = true) :
    evaluate_off_topic (RAGChain.query client question results).answer = true := by
  simp only [RAGChain.query, if_pos h]
  decide

/-- Witness for `C10_refusal_detected` at a concrete input. -/
theorem C10_refusal_detected_witness :
    (is_off_topic "What is the best pizza place nearby?".data [] = true)
    ∧ evaluate_off_topic
        (RAGChain.query none "What is the best pizza place nearby?".data []).answer
        = true :=
  ⟨rfl, C10_refusal_detected none "What is the best pizza place nearby?".data [] rfl⟩

/-- Claim C7: if the index is non-empty and the force flag is false, the
indexing pipeline performs no action at all — no clear, no document
loading, no chunking, no insertion — leaves the index contents unchanged,
and reports the existing entry count. -/
theorem C7_pipeline_noop {α : Type} (store chunks : List α) (h : store ≠ []) :
    initialize_vectorstore false store chunks = (store, [], store.length) := by
  unfold initialize_vectorstore
  rw [if_neg]
  simp [List.length_eq_zero, h]

/-- Witness for `C7_pipeline_noop` at a concrete input. -/
theorem C7_pipeline_noop_witness :
    (([1] : List Nat) ≠ [])
    ∧ initialize_vectorstore false [1] [2, 3] = (([1] : List Nat), [], ([1] : List Nat).length) :=
  ⟨by decide, C7_pipeline_noop [1] [2, 3] (by decide)⟩
